import Mathlib

/-!
Verification of the SVG Gantt chart renderer (`gantt.js`).

The renderer is shallowly embedded: calendar dates are epoch-day numbers
obtained from year/month/day triples by the civil-calendar formula (modelling
`new Date(y, m - 1, d)`); `Date` timestamps are the corresponding
local-midnight millisecond values; pixel coordinates are rationals (JS
numbers are exact on the values involved here); DOM/SVG output is modelled by
the geometric data the renderer computes (rows, bars, orthogonal arrow
paths).  Every definition follows the corresponding function of `gantt.js`.
-/

namespace Gantt

/-! ### Constants (gantt.js top of file) -/

/-- ROW_HEIGHT: px per row. -/
def ROW_HEIGHT : ℚ := 44

/-- TIMELINE_HEADER_H: px height of the timeline header. -/
def TIMELINE_HEADER_H : ℚ := 48

/-! ### Date helpers

A calendar date `YYYY-MM-DD` is modelled by its year/month/day triple; the
`Date` object `new Date(y, m-1, d)` (local midnight) is modelled by the
epoch-day number of that calendar date, and its millisecond timestamp by
`toTimestamp`.  The embedding uses a drift-free timezone for the renderer's
own dates; daylight-saving drift is modelled explicitly by `localMidnight`
where the claim about `daysBetween` needs it. -/

/-- A parsed `YYYY-MM-DD` calendar date. -/
structure CivilDate where
  y : Int
  m : Int
  d : Int
deriving DecidableEq

/-- Epoch-day number of a civil date (days since 1970-01-01, Hinnant's
`days_from_civil`; `/` on `Int` is floor division for these positive
divisors).  This models which day `new Date(y, m - 1, d)` denotes. -/
def daysFromCivil (y m d : Int) : Int :=
  let yA := y - (if m ≤ 2 then 1 else 0)
  let era := yA / 400
  let yoe := yA - era * 400
  let mp := if 2 < m then m - 3 else m + 9
  let doy := (153 * mp + 2) / 5 + d - 1
  let doe := yoe * 365 + yoe / 4 - yoe / 100 + doy
  era * 146097 + doe - 719468

/-- parseDate: `YYYY-MM-DD → local midnight Date`, as an epoch-day number. -/
def parseDate (s : CivilDate) : Int :=
  daysFromCivil s.y s.m s.d

/-- Millisecond timestamp of local midnight of an epoch day (drift-free
timezone model). -/
def toTimestamp (day : Int) : Int :=
  day * 86400000

/-- A local-midnight timestamp with an explicit sub-day drift `δ`
(timezone/daylight-saving offset) relative to the day grid. -/
def localMidnight (day δ : Int) : Int :=
  day * 86400000 + δ

/-- daysBetween: `Math.round((b - a) / 86400000)` on millisecond timestamps.
`Math.round x = ⌊x + 1/2⌋` (halves round toward `+∞`), and `86400000` is
even, so this is `⌊(b - a + 43200000) / 86400000⌋`. -/
def daysBetween (a b : Int) : Int :=
  (b - a + 43200000) / 86400000

/-- dateToX: `daysBetween(projectStart, date) * dayWidth`, over the
local-midnight timestamps of the two dates (given as epoch days). -/
def dateToX (date projectStart : Int) (dayWidth : ℚ) : ℚ :=
  ((daysBetween (toTimestamp projectStart) (toTimestamp date) : Int) : ℚ) * dayWidth

/-- JS `Date.prototype.getDay` (0 = Sunday) of an epoch day: day 0
(1970-01-01) was a Thursday. -/
def getDay (day : Int) : Int :=
  (day + 4) % 7

/-! ### Calendar arithmetic lemmas used for tick generation -/

theorem daysBetween_toTimestamp (a b : Int) :
    daysBetween (toTimestamp a) (toTimestamp b) = b - a := by
  unfold daysBetween toTimestamp
  omega

theorem dateToX_eval (d ps : Int) (w : ℚ) :
    dateToX d ps w = ((d - ps : Int) : ℚ) * w := by
  rw [dateToX, daysBetween_toTimestamp]

theorem daysFromCivil_lt_next_month (y m : Int) :
    daysFromCivil y m 1 < daysFromCivil y (m + 1) 1 := by
  simp only [daysFromCivil]
  split_ifs <;> omega

theorem daysFromCivil_lt_year_wrap (y : Int) :
    daysFromCivil y 12 1 < daysFromCivil (y + 1) 1 1 := by
  simp only [daysFromCivil]
  split_ifs <;> omega

theorem daysFromCivil_first_le (y m d : Int) (h : 1 ≤ d) :
    daysFromCivil y m 1 ≤ daysFromCivil y m d := by
  simp only [daysFromCivil]
  split_ifs <;> omega

theorem daysFromCivil_jan_lt_apr (y : Int) :
    daysFromCivil y 1 1 < daysFromCivil y 4 1 := by
  simp only [daysFromCivil]; split_ifs <;> omega

theorem daysFromCivil_apr_lt_jul (y : Int) :
    daysFromCivil y 4 1 < daysFromCivil y 7 1 := by
  simp only [daysFromCivil]; split_ifs <;> omega

theorem daysFromCivil_jul_lt_oct (y : Int) :
    daysFromCivil y 7 1 < daysFromCivil y 10 1 := by
  simp only [daysFromCivil]; split_ifs <;> omega

theorem daysFromCivil_oct_lt_jan (y : Int) :
    daysFromCivil y 10 1 < daysFromCivil (y + 1) 1 1 := by
  simp only [daysFromCivil]; split_ifs <;> omega

theorem daysFromCivil_jan_lt_succ (y : Int) :
    daysFromCivil y 1 1 < daysFromCivil (y + 1) 1 1 := by
  simp only [daysFromCivil]; split_ifs <;> omega

/-! ### Adaptive tick dates (GanttChart.getTickDates)

The source returns `{date, label}` pairs; the embedding keeps the dates
(epoch days), which is everything the layout reads.  The three loops of the
source are the three recursions below. -/

/-- The Monday on or before a day: `cur.setDate(cur.getDate() - ((cur.getDay() + 6) % 7))`. -/
def mondayOnOrBefore (day : Int) : Int :=
  day - ((getDay day + 6) % 7)

/-- Weekly loop: `while (cur <= projectEnd) { push(cur); cur += 7 }`. -/
def weeklyTicks (cur pe : Int) : List Int :=
  if cur ≤ pe then cur :: weeklyTicks (cur + 7) pe else []
termination_by (pe + 1 - cur).toNat
decreasing_by omega

/-- Monthly loop from the first of month `(y, m)`:
`while (cur <= projectEnd) { push(cur); cur.setMonth(cur.getMonth() + 1) }`. -/
def monthlyTicks (y m pe : Int) : List Int :=
  if daysFromCivil y m 1 ≤ pe then
    daysFromCivil y m 1 ::
      (if hm : m = 12 then monthlyTicks (y + 1) 1 pe else monthlyTicks y (m + 1) pe)
  else []
termination_by (pe + 1 - daysFromCivil y m 1).toNat
decreasing_by
  · subst hm
    have h := daysFromCivil_lt_year_wrap y
    omega
  · have h := daysFromCivil_lt_next_month y m
    omega

/-- One year of the quarterly loop: `new Date(yr, qm, 1)` for
`qm ∈ {0, 3, 6, 9}` (month index), kept when inside `[ps, pe]`. -/
def quarterYear (yr lo hi : Int) : List Int :=
  [0, 3, 6, 9].filterMap fun qm =>
    if lo ≤ daysFromCivil yr (qm + 1) 1 ∧ daysFromCivil yr (qm + 1) 1 ≤ hi then
      some (daysFromCivil yr (qm + 1) 1)
    else none

/-- Quarterly loop over `yr = startYear .. endYear`. -/
def quarterlyTicks (sy ey lo hi : Int) : List Int :=
  (List.range (ey + 1 - sy).toNat).flatMap fun k => quarterYear (sy + k) lo hi

/-- GanttChart.getTickDates: weekly if a week is at least 40px, else monthly
if a month is at least 40px, else quarterly with a fallback single tick at
`projectStart` when no quarter boundary falls in range. -/
def getTickDates (ps pe : CivilDate) (dayWidth : ℚ) : List Int :=
  if 40 ≤ dayWidth * 7 then
    weeklyTicks (mondayOnOrBefore (parseDate ps)) (parseDate pe)
  else if 40 ≤ dayWidth * 30 then
    monthlyTicks ps.y ps.m (parseDate pe)
  else
    let q := quarterlyTicks ps.y pe.y (parseDate ps) (parseDate pe)
    if q = [] then [parseDate ps] else q

/-! ### Lemmas about the tick loops -/

theorem mondayOnOrBefore_le (day : Int) : mondayOnOrBefore day ≤ day := by
  unfold mondayOnOrBefore getDay
  omega

theorem sub_six_le_mondayOnOrBefore (day : Int) : day - 6 ≤ mondayOnOrBefore day := by
  unfold mondayOnOrBefore getDay
  omega

theorem mondayOnOrBefore_getDay (day : Int) : getDay (mondayOnOrBefore day) = 1 := by
  unfold mondayOnOrBefore getDay
  omega

theorem weeklyTicks_mem (cur pe : Int) :
    ∀ x ∈ weeklyTicks cur pe, (∃ k : ℕ, x = cur + 7 * k) ∧ x ≤ pe := by
  induction cur, pe using weeklyTicks.induct with
  | case1 cur pe h ih =>
    rw [weeklyTicks, if_pos h]
    intro x hx
    rcases List.mem_cons.mp hx with hx | hx
    · exact ⟨⟨0, by omega⟩, by omega⟩
    · obtain ⟨⟨k, hk⟩, hk2⟩ := ih x hx
      exact ⟨⟨k + 1, by push_cast; omega⟩, hk2⟩
  | case2 cur pe h =>
    rw [weeklyTicks, if_neg h]
    intro x hx
    cases hx

theorem weeklyTicks_pairwise (cur pe : Int) :
    List.Pairwise (· < ·) (weeklyTicks cur pe) := by
  induction cur, pe using weeklyTicks.induct with
  | case1 cur pe h ih =>
    rw [weeklyTicks, if_pos h]
    refine List.pairwise_cons.mpr ⟨?_, ih⟩
    intro x hx
    obtain ⟨⟨k, hk⟩, _⟩ := weeklyTicks_mem (cur + 7) pe x hx
    omega
  | case2 cur pe h =>
    rw [weeklyTicks, if_neg h]
    exact List.Pairwise.nil

theorem weeklyTicks_head (cur pe : Int) (h : cur ≤ pe) :
    (weeklyTicks cur pe).head? = some cur := by
  rw [weeklyTicks, if_pos h]
  rfl

theorem monthlyTicks_mem (y m pe : Int) :
    ∀ x ∈ monthlyTicks y m pe,
      daysFromCivil y m 1 ≤ x ∧ x ≤ pe ∧ ∃ y' m', x = daysFromCivil y' m' 1 := by
  induction y, m, pe using monthlyTicks.induct with
  | case1 y m pe h ih1 ih2 =>
    rw [monthlyTicks, if_pos h]
    intro x hx
    by_cases hm : m = 12
    · rw [dif_pos hm] at hx
      rcases List.mem_cons.mp hx with hx | hx
      · exact ⟨le_of_eq hx.symm, by omega, y, m, hx⟩
      · obtain ⟨h1, h2, h3⟩ := ih1 hm x hx
        have hw := daysFromCivil_lt_year_wrap y
        subst hm
        exact ⟨by omega, h2, h3⟩
    · rw [dif_neg hm] at hx
      rcases List.mem_cons.mp hx with hx | hx
      · exact ⟨le_of_eq hx.symm, by omega, y, m, hx⟩
      · obtain ⟨h1, h2, h3⟩ := ih2 x hx
        have hw := daysFromCivil_lt_next_month y m
        exact ⟨by omega, h2, h3⟩
  | case2 y m pe h =>
    rw [monthlyTicks, if_neg h]
    intro x hx
    cases hx

theorem monthlyTicks_pairwise (y m pe : Int) :
    List.Pairwise (· < ·) (monthlyTicks y m pe) := by
  induction y, m, pe using monthlyTicks.induct with
  | case1 y m pe h ih1 ih2 =>
    rw [monthlyTicks, if_pos h]
    by_cases hm : m = 12
    · rw [dif_pos hm]
      refine List.pairwise_cons.mpr ⟨?_, ih1 hm⟩
      intro x hx
      obtain ⟨h1, _, _⟩ := monthlyTicks_mem _ _ _ x hx
      have hw := daysFromCivil_lt_year_wrap y
      subst hm
      omega
    · rw [dif_neg hm]
      refine List.pairwise_cons.mpr ⟨?_, ih2⟩
      intro x hx
      obtain ⟨h1, _, _⟩ := monthlyTicks_mem _ _ _ x hx
      have hw := daysFromCivil_lt_next_month y m
      omega
  | case2 y m pe h =>
    rw [monthlyTicks, if_neg h]
    exact List.Pairwise.nil

theorem monthlyTicks_head (y m pe : Int) (h : daysFromCivil y m 1 ≤ pe) :
    (monthlyTicks y m pe).head? = some (daysFromCivil y m 1) := by
  rw [monthlyTicks, if_pos h]
  by_cases hm : m = 12
  · rw [dif_pos hm]; rfl
  · rw [dif_neg hm]; rfl

theorem quarterYear_eq_filter (yr lo hi : Int) :
    quarterYear yr lo hi =
      ([daysFromCivil yr 1 1, daysFromCivil yr 4 1, daysFromCivil yr 7 1,
        daysFromCivil yr 10 1].filter fun d => decide (lo ≤ d ∧ d ≤ hi)) := by
  simp only [quarterYear, List.filterMap_cons, List.filterMap_nil, List.filter_cons,
    List.filter_nil]
  norm_num
  split_ifs <;> simp_all

theorem quarterYear_mem (yr lo hi x : Int) (hx : x ∈ quarterYear yr lo hi) :
    lo ≤ x ∧ x ≤ hi ∧ daysFromCivil yr 1 1 ≤ x ∧ x < daysFromCivil (yr + 1) 1 1 ∧
      ∃ qm, qm ∈ ([0, 3, 6, 9] : List Int) ∧ x = daysFromCivil yr (qm + 1) 1 := by
  rw [quarterYear_eq_filter] at hx
  obtain ⟨hmem, hko⟩ := List.mem_filter.mp hx
  have h1 := daysFromCivil_jan_lt_apr yr
  have h2 := daysFromCivil_apr_lt_jul yr
  have h3 := daysFromCivil_jul_lt_oct yr
  have h4 := daysFromCivil_oct_lt_jan yr
  have hko' : lo ≤ x ∧ x ≤ hi := by simpa using hko
  simp only [List.mem_cons, List.not_mem_nil, or_false] at hmem
  rcases hmem with hx' | hx' | hx' | hx'
  · exact ⟨hko'.1, hko'.2, by omega, by omega, 0, by norm_num, by norm_num [hx']⟩
  · exact ⟨hko'.1, hko'.2, by omega, by omega, 3, by norm_num, by norm_num [hx']⟩
  · exact ⟨hko'.1, hko'.2, by omega, by omega, 6, by norm_num, by norm_num [hx']⟩
  · exact ⟨hko'.1, hko'.2, by omega, by omega, 9, by norm_num, by norm_num [hx']⟩

theorem quarterYear_pairwise (yr lo hi : Int) :
    List.Pairwise (· < ·) (quarterYear yr lo hi) := by
  rw [quarterYear_eq_filter]
  refine List.Pairwise.filter _ ?_
  have h1 := daysFromCivil_jan_lt_apr yr
  have h2 := daysFromCivil_apr_lt_jul yr
  have h3 := daysFromCivil_jul_lt_oct yr
  refine List.Pairwise.cons ?_ (List.Pairwise.cons ?_ (List.Pairwise.cons ?_
    (List.Pairwise.cons ?_ List.Pairwise.nil)))
  · intro a ha
    simp only [List.mem_cons, List.not_mem_nil, or_false] at ha
    rcases ha with ha | ha | ha <;> omega
  · intro a ha
    simp only [List.mem_cons, List.not_mem_nil, or_false] at ha
    rcases ha with ha | ha <;> omega
  · intro a ha
    simp only [List.mem_cons, List.not_mem_nil, or_false] at ha
    omega
  · intro a ha
    cases ha

theorem quarterlyTicks_aux (sy lo hi : Int) (n : ℕ) :
    List.Pairwise (· < ·) ((List.range n).flatMap fun k => quarterYear (sy + k) lo hi) ∧
      ∀ x ∈ (List.range n).flatMap fun k => quarterYear (sy + k) lo hi,
        x < daysFromCivil (sy + n) 1 1 := by
  induction n with
  | zero => simp
  | succ n ih =>
    rw [List.range_succ, List.flatMap_append]
    constructor
    · refine List.pairwise_append.mpr ⟨ih.1, ?_, ?_⟩
      · simpa using quarterYear_pairwise (sy + n) lo hi
      · intro a ha b hb
        simp only [List.flatMap_cons, List.flatMap_nil, List.append_nil] at hb
        obtain ⟨_, _, hb3, _, _⟩ := quarterYear_mem _ _ _ _ hb
        have ha' := ih.2 a ha
        omega
    · intro x hx
      rcases List.mem_append.mp hx with hx' | hx'
      · have h1 := ih.2 x hx'
        have h2 := daysFromCivil_jan_lt_succ (sy + (n : Int))
        have hc : sy + ((n : ℕ) + 1 : ℕ) = sy + (n : Int) + 1 := by push_cast; ring
        rw [hc]
        omega
      · simp only [List.flatMap_cons, List.flatMap_nil, List.append_nil] at hx'
        obtain ⟨_, _, _, hb4, _⟩ := quarterYear_mem _ _ _ _ hx'
        have hc : sy + ((n : ℕ) + 1 : ℕ) = sy + (n : Int) + 1 := by push_cast; ring
        rw [hc]
        omega

theorem quarterlyTicks_pairwise (sy ey lo hi : Int) :
    List.Pairwise (· < ·) (quarterlyTicks sy ey lo hi) :=
  (quarterlyTicks_aux sy lo hi (ey + 1 - sy).toNat).1

theorem quarterlyTicks_mem (sy ey lo hi x : Int) (hx : x ∈ quarterlyTicks sy ey lo hi) :
    lo ≤ x ∧ x ≤ hi ∧ ∃ yr qm, qm ∈ ([0, 3, 6, 9] : List Int) ∧
      x = daysFromCivil yr (qm + 1) 1 := by
  obtain ⟨k, _, hk⟩ := List.mem_flatMap.mp hx
  obtain ⟨h1, h2, _, _, qm, hqm, hx'⟩ := quarterYear_mem _ _ _ _ hk
  exact ⟨h1, h2, sy + k, qm, hqm, hx'⟩

/-- Claim C5: for every `projectStart ≤ projectEnd` and every `dayWidth`,
tick generation returns a non-empty, strictly ordered sequence and is
deterministic (the embedding is a pure function, so identical inputs give
identical — definitionally equal — output): weekly ticks starting at the
Monday on/before `projectStart` when `dayWidth × 7 ≥ 40`; else monthly ticks
at the first of each month when `dayWidth × 30 ≥ 40`; else quarterly ticks at
Jan/Apr/Jul/Oct 1st falling within the range, with exactly one fallback tick
at `projectStart` when no quarter boundary falls within the range. -/
theorem getTickDates_spec (ps pe : CivilDate) (w : ℚ)
    (hd : 1 ≤ ps.d) (hle : parseDate ps ≤ parseDate pe) :
    getTickDates ps pe w ≠ [] ∧
    List.Pairwise (· < ·) (getTickDates ps pe w) ∧
    getTickDates ps pe w = getTickDates ps pe w ∧
    (40 ≤ w * 7 →
      (getTickDates ps pe w).head? = some (mondayOnOrBefore (parseDate ps)) ∧
      mondayOnOrBefore (parseDate ps) ≤ parseDate ps ∧
      parseDate ps - 6 ≤ mondayOnOrBefore (parseDate ps) ∧
      getDay (mondayOnOrBefore (parseDate ps)) = 1) ∧
    (¬ 40 ≤ w * 7 → 40 ≤ w * 30 →
      (getTickDates ps pe w).head? = some (daysFromCivil ps.y ps.m 1) ∧
      ∀ x ∈ getTickDates ps pe w, ∃ y' m', x = daysFromCivil y' m' 1) ∧
    (¬ 40 ≤ w * 7 → ¬ 40 ≤ w * 30 →
      (quarterlyTicks ps.y pe.y (parseDate ps) (parseDate pe) = [] →
        getTickDates ps pe w = [parseDate ps]) ∧
      (quarterlyTicks ps.y pe.y (parseDate ps) (parseDate pe) ≠ [] →
        ∀ x ∈ getTickDates ps pe w,
          parseDate ps ≤ x ∧ x ≤ parseDate pe ∧
            ∃ yr qm, qm ∈ ([0, 3, 6, 9] : List Int) ∧
              x = daysFromCivil yr (qm + 1) 1)) := by
  have hmon : mondayOnOrBefore (parseDate ps) ≤ parseDate pe :=
    le_trans (mondayOnOrBefore_le _) hle
  have hfirst : daysFromCivil ps.y ps.m 1 ≤ parseDate pe :=
    le_trans (le_trans (daysFromCivil_first_le ps.y ps.m ps.d hd) (le_of_eq rfl)) hle
  by_cases h7 : 40 ≤ w * 7
  · have hdef : getTickDates ps pe w =
        weeklyTicks (mondayOnOrBefore (parseDate ps)) (parseDate pe) := by
      rw [getTickDates, if_pos h7]
    rw [hdef]
    refine ⟨?_, weeklyTicks_pairwise _ _, rfl, ?_, ?_, ?_⟩
    · rw [weeklyTicks, if_pos hmon]
      simp
    · intro _
      exact ⟨weeklyTicks_head _ _ hmon, mondayOnOrBefore_le _,
        sub_six_le_mondayOnOrBefore _, mondayOnOrBefore_getDay _⟩
    · intro h7'
      exact absurd h7 h7'
    · intro h7'
      exact absurd h7 h7'
  · by_cases h30 : 40 ≤ w * 30
    · have hdef : getTickDates ps pe w = monthlyTicks ps.y ps.m (parseDate pe) := by
        rw [getTickDates, if_neg h7, if_pos h30]
      rw [hdef]
      refine ⟨?_, monthlyTicks_pairwise _ _ _, rfl, ?_, ?_, ?_⟩
      · intro hnil
        have hh := monthlyTicks_head ps.y ps.m (parseDate pe) hfirst
        rw [hnil] at hh
        cases hh
      · intro h7'
        exact absurd h7' h7
      · intro _ _
        refine ⟨monthlyTicks_head _ _ _ hfirst, ?_⟩
        intro x hx
        exact (monthlyTicks_mem _ _ _ x hx).2.2
      · intro _ h30'
        exact absurd h30 h30'
    · by_cases hq : quarterlyTicks ps.y pe.y (parseDate ps) (parseDate pe) = []
      · have hdef : getTickDates ps pe w = [parseDate ps] := by
          rw [getTickDates, if_neg h7, if_neg h30]
          simp only [if_pos hq]
        rw [hdef]
        refine ⟨by simp, by simp, rfl, ?_, ?_, ?_⟩
        · intro h7'
          exact absurd h7' h7
        · intro _ h30'
          exact absurd h30' h30
        · intro _ _
          exact ⟨fun _ => rfl, fun hne => absurd hq hne⟩
      · have hdef : getTickDates ps pe w =
            quarterlyTicks ps.y pe.y (parseDate ps) (parseDate pe) := by
          rw [getTickDates, if_neg h7, if_neg h30]
          simp only [if_neg hq]
        rw [hdef]
        refine ⟨hq, quarterlyTicks_pairwise _ _ _ _, rfl, ?_, ?_, ?_⟩
        · intro h7'
          exact absurd h7' h7
        · intro _ h30'
          exact absurd h30' h30
        · intro _ _
          refine ⟨fun h => absurd h hq, ?_⟩
          intro _ x hx
          exact quarterlyTicks_mem _ _ _ _ x hx

/-- Claim C6: for all local-midnight-normalized dates `a` and `b` (modelled
as `day × 86400000 + δ` with the two drifts differing by less than half a
day, which covers daylight-saving-induced drift), `a ≤ b → daysBetween a b ≥ 0`,
`daysBetween a b = -daysBetween b a`, and the rounded result is exactly the
calendar-day difference. -/
theorem daysBetween_round_antisymm (da δa db δb : Int)
    (h1 : -43200000 < δa - δb) (h2 : δa - δb < 43200000) :
    (localMidnight da δa ≤ localMidnight db δb →
      0 ≤ daysBetween (localMidnight da δa) (localMidnight db δb)) ∧
    daysBetween (localMidnight da δa) (localMidnight db δb) =
      - daysBetween (localMidnight db δb) (localMidnight da δa) ∧
    daysBetween (localMidnight da δa) (localMidnight db δb) = db - da := by
  unfold localMidnight daysBetween
  refine ⟨fun h => by omega, by omega, by omega⟩

theorem daysBetween_round_antisymm_witness :
    (localMidnight 0 0 ≤ localMidnight 5 3600000 →
      0 ≤ daysBetween (localMidnight 0 0) (localMidnight 5 3600000)) ∧
    daysBetween (localMidnight 0 0) (localMidnight 5 3600000) =
      - daysBetween (localMidnight 5 3600000) (localMidnight 0 0) ∧
    daysBetween (localMidnight 0 0) (localMidnight 5 3600000) = 5 - 0 :=
  daysBetween_round_antisymm 0 0 5 3600000 (by decide) (by decide)

theorem getTickDates_spec_witness :
    getTickDates ⟨2024, 1, 1⟩ ⟨2024, 1, 31⟩ 10 ≠ [] ∧
      List.Pairwise (· < ·) (getTickDates ⟨2024, 1, 1⟩ ⟨2024, 1, 31⟩ 10) :=
  ⟨(getTickDates_spec ⟨2024, 1, 1⟩ ⟨2024, 1, 31⟩ 10 (by decide) (by decide)).1,
   (getTickDates_spec ⟨2024, 1, 1⟩ ⟨2024, 1, 31⟩ 10 (by decide) (by decide)).2.1⟩

/-! ### Schedule data model (the gantt JSON)

Dates inside the schedule are kept as their parsed `CivilDate` triples; the
renderer applies `parseDate` at the point of use, as the source does. -/

/-- A task of the schedule JSON. -/
structure Task where
  id : String
  name : String
  start : CivilDate
  «end» : CivilDate
  effort : String
  dependsOn : List String
deriving DecidableEq

/-- A group (phase) of the schedule JSON. -/
structure Group where
  id : String
  name : String
  start : CivilDate
  «end» : CivilDate
  effort : String
  tasks : List Task
deriving DecidableEq

/-- The `project` header of the schedule JSON. -/
structure ProjectData where
  name : String
  start : CivilDate
  «end» : CivilDate
deriving DecidableEq

/-- The whole schedule JSON. -/
structure ScheduleData where
  project : ProjectData
  groups : List Group
deriving DecidableEq

/-- Row kinds of the flattened list. -/
inductive RowType where
  | phase
  | task
deriving DecidableEq

/-- One entry of `this.rows`: `{ type, groupIdx, taskIdx, data, rowIndex,
visible }`.  The `data` back-reference is modelled by the fields the renderer
reads (id, name, dates, effort, dependsOn) plus the owning group's id. -/
structure Row where
  type : RowType
  groupIdx : Nat
  taskIdx : Option Nat
  groupId : String
  id : String
  name : String
  start : CivilDate
  «end» : CivilDate
  effort : String
  dependsOn : List String
  rowIndex : Nat
  visible : Bool
deriving DecidableEq

/-- The phase row pushed for a group. -/
def phaseRowOf (gi idx : Nat) (g : Group) : Row :=
  { type := RowType.phase, groupIdx := gi, taskIdx := none, groupId := g.id,
    id := g.id, name := g.name, start := g.start, «end» := g.«end»,
    effort := g.effort, dependsOn := [], rowIndex := idx, visible := true }

/-- The task row pushed for a task (visible unless its group is collapsed). -/
def taskRowOf (gi ti idx : Nat) (gid : String) (t : Task) (collapsed : Bool) : Row :=
  { type := RowType.task, groupIdx := gi, taskIdx := some ti, groupId := gid,
    id := t.id, name := t.name, start := t.start, «end» := t.«end»,
    effort := t.effort, dependsOn := t.dependsOn, rowIndex := idx,
    visible := !collapsed }

/-- GanttChart.buildRows, with the running `rowIndex` counter made explicit:
for each group one phase row, then one task row per task. -/
def buildRowsAux (c : Finset String) : Nat → Nat → List Group → List Row
  | _, _, [] => []
  | gi, idx, g :: gs =>
    phaseRowOf gi idx g ::
      (g.tasks.enum.map fun p =>
        taskRowOf gi p.1 (idx + 1 + p.1) g.id p.2 (decide (g.id ∈ c))) ++
      buildRowsAux c (gi + 1) (idx + 1 + g.tasks.length) gs

/-- GanttChart.buildRows (`this.rows = []; rowIndex = 0; ...`). -/
def buildRows (gs : List Group) (c : Finset String) : List Row :=
  buildRowsAux c 0 0 gs

/-- GanttChart.buildTaskMap: `taskMap[row.data.id] = row` for each task row,
so a later row with the same id wins. -/
def buildTaskMap : List Row → String → Option Row
  | [], _ => none
  | r :: rs, k =>
    match buildTaskMap rs k with
    | some x => some x
    | none => if r.type = RowType.task ∧ r.id = k then some r else none

/-- The rows that currently occupy vertical space. -/
def visibleRows (rows : List Row) : List Row :=
  rows.filter fun r => r.visible

/-- GanttChart.toggleGroup: flip membership of the group id in the
collapsed-set. -/
def toggleGroup (c : Finset String) (g : String) : Finset String :=
  if g ∈ c then c.erase g else insert g c


/-! ### Bars (GanttChart.buildPhaseBar / buildTaskBar)

A bar is modelled by the geometry of its `rect`. -/

/-- An SVG bar rectangle. -/
structure Bar where
  x : ℚ
  y : ℚ
  w : ℚ
  h : ℚ
deriving DecidableEq

/-- GanttChart.buildPhaseBar: `x = dateToX(start)`, `endX = dateToX(end) +
dayWidth`, width `max(endX - x, 4)`, vertical inset 8. -/
def buildPhaseBar (r : Row) (y : ℚ) (ps : Int) (dayWidth : ℚ) : Bar :=
  let x := dateToX (parseDate r.start) ps dayWidth
  let endX := dateToX (parseDate r.«end») ps dayWidth + dayWidth
  { x := x, y := y + 8, w := max (endX - x) 4, h := ROW_HEIGHT - 16 }

/-- GanttChart.buildTaskBar: like the phase bar but with vertical inset 10. -/
def buildTaskBar (r : Row) (y : ℚ) (ps : Int) (dayWidth : ℚ) : Bar :=
  let x := dateToX (parseDate r.start) ps dayWidth
  let endX := dateToX (parseDate r.«end») ps dayWidth + dayWidth
  { x := x, y := y + 10, w := max (endX - x) 4, h := ROW_HEIGHT - 20 }

/-- The bars loop of GanttChart.renderSVG: one bar per visible row at
`y = visibleIdx × ROW_HEIGHT`, with the running visible index made
explicit. -/
def renderBars (ps : Int) (dayWidth : ℚ) : List Row → Nat → List Bar
  | [], _ => []
  | r :: rs, vi =>
    if r.visible then
      (if r.type = RowType.phase then
        buildPhaseBar r ((vi : ℚ) * ROW_HEIGHT) ps dayWidth
      else
        buildTaskBar r ((vi : ℚ) * ROW_HEIGHT) ps dayWidth) ::
        renderBars ps dayWidth rs (vi + 1)
    else renderBars ps dayWidth rs vi

/-- The `row.visibleY = y` assignments of the same loop, as an association
list from `rowIndex` to the stored visible `y`. -/
def visibleYs : List Row → Nat → List (Nat × ℚ)
  | [], _ => []
  | r :: rs, vi =>
    if r.visible then (r.rowIndex, (vi : ℚ) * ROW_HEIGHT) :: visibleYs rs (vi + 1)
    else visibleYs rs vi

/-! ### Dependency arrows (GanttChart.buildDependencyArrow)

The SVG path string `M x₀ y₀ H x₁ V y₁ ...` is modelled by its start point
and its list of `H`/`V` commands. -/

/-- One orthogonal path command: horizontal-to or vertical-to. -/
inductive Seg where
  | H (x : ℚ)
  | V (y : ℚ)
deriving DecidableEq

/-- An orthogonal SVG path: start point plus `H`/`V` commands. -/
structure APath where
  start : ℚ × ℚ
  segs : List Seg
deriving DecidableEq

/-- ELBOW: px to extend right before turning. -/
def ELBOW : ℚ := 10

/-- GanttChart.buildDependencyArrow.  `fromRow`/`toRow` are the predecessor
and successor rows; `fromVisY`/`toVisY` model their mutable `visibleY`
fields. -/
def buildDependencyArrow (ps : Int) (dayWidth : ℚ) (fromRow toRow : Row)
    (fromVisY toVisY : ℚ) : APath :=
  let fromX := dateToX (parseDate fromRow.«end») ps dayWidth + dayWidth
  let fromY := fromVisY + ROW_HEIGHT / 2
  let toX := dateToX (parseDate toRow.start) ps dayWidth
  let toY := toVisY + ROW_HEIGHT / 2
  if fromX + ELBOW * 2 ≤ toX then
    ⟨(fromX, fromY), [Seg.H (fromX + ELBOW), Seg.V toY, Seg.H toX]⟩
  else
    ⟨(fromX, fromY),
      [Seg.H (fromX + ELBOW),
       Seg.V (if fromY < toY then fromVisY + ROW_HEIGHT + 4 else fromVisY - 4),
       Seg.H (max ELBOW (toX - ELBOW)), Seg.V toY, Seg.H toX]⟩

/-- The dependency loop of GanttChart.renderSVG: for each visible task row
and each of its `dependsOn` ids, resolve the predecessor through the task
map and draw an arrow unless the id is unknown or the predecessor is
invisible. -/
def renderArrows (rows : List Row) (ps : Int) (dayWidth : ℚ) : List APath :=
  rows.flatMap fun r =>
    if r.type = RowType.task ∧ r.visible = true then
      r.dependsOn.filterMap fun depId =>
        match buildTaskMap rows depId with
        | none => none
        | some depRow =>
          if depRow.visible = true then
            some (buildDependencyArrow ps dayWidth depRow r
              (((visibleYs rows 0).lookup depRow.rowIndex).getD 0)
              (((visibleYs rows 0).lookup r.rowIndex).getD 0))
          else none
    else []

/-! ### Path geometry

All path segments are axis-aligned, so a segment between consecutive
vertices coincides with its bounding box. -/

/-- The mutable state of a `GanttChart` instance. -/
structure GanttChart where
  data : ScheduleData
  projectStart : Int
  projectEnd : Int
  totalDays : Int
  dayWidth : ℚ
  svgWidth : ℚ
  rows : List Row
  collapsedGroups : Finset String

/-- The GanttChart constructor. -/
def GanttChart.init (data : ScheduleData) : GanttChart :=
  { data := data,
    projectStart := parseDate data.project.start,
    projectEnd := parseDate data.project.«end»,
    totalDays :=
      daysBetween (toTimestamp (parseDate data.project.start))
        (toTimestamp (parseDate data.project.«end»)) + 1,
    dayWidth := 1,
    svgWidth := 0,
    rows := [],
    collapsedGroups := ∅ }

/-- The visual tree produced by one render pass: flattened rows, visible-row
offsets, bars, dependency arrows. -/
structure RenderOutput where
  rows : List Row
  offsets : List (Nat × ℚ)
  bars : List Bar
  arrows : List APath
deriving DecidableEq

/-- GanttChart.render: derive `dayWidth` from the available width, rebuild
the rows, and rebuild the SVG body from scratch. -/
def GanttChart.render (s : GanttChart) (availableWidth : ℚ) : GanttChart × RenderOutput :=
  let dayWidth := availableWidth / (s.totalDays : ℚ)
  let rows := buildRows s.data.groups s.collapsedGroups
  ({ s with dayWidth := dayWidth, svgWidth := availableWidth, rows := rows },
   { rows := rows,
     offsets := visibleYs rows 0,
     bars := renderBars s.projectStart dayWidth rows 0,
     arrows := renderArrows rows s.projectStart dayWidth })

/-- Remove one occurrence of dependency `bad` from the task with id `tid`
(used to state that a skipped arrow leaves the rest of the render pass
unchanged). -/
def dropDep (gs : List Group) (tid bad : String) : List Group :=
  gs.map fun g =>
    { g with
      tasks := g.tasks.map fun t =>
        if t.id = tid then { t with dependsOn := t.dependsOn.erase bad } else t }

/-- The per-row data the renderer displays apart from dependencies: kind,
indices, ids, dates, effort, order and visibility. -/
def rowSkeleton (rows : List Row) :
    List (RowType × Nat × Option Nat × String × String × String × CivilDate ×
      CivilDate × String × Nat × Bool) :=
  rows.map fun r =>
    (r.type, r.groupIdx, r.taskIdx, r.groupId, r.id, r.name, r.start, r.«end»,
      r.effort, r.rowIndex, r.visible)


/-! ### Claim C1: arrow routing returns one of two path shapes -/

/-- Claim C1: dependency arrow routing returns exactly one of two path
shapes, selected by the elbow clearance constant `ELBOW`: with
`fromX = dateToX(pred.end) + dayWidth`, `fromY` the predecessor row's
vertical center, `toX = dateToX(succ.start)`, `toY` the successor row's
vertical center, if `fromX + 2·ELBOW ≤ toX` the router returns the 3-segment
path (right by `ELBOW`, vertical to `toY`, right to `toX`); otherwise the
5-segment detour (right by `ELBOW`, vertical to a detour row just below the
predecessor's row if the successor is below it, else just above, horizontal
to `max(ELBOW, toX − ELBOW)`, vertical to `toY`, right to `toX`). -/
theorem buildDependencyArrow_cases (ps : Int) (w : ℚ) (fromRow toRow : Row)
    (fromVisY toVisY : ℚ) :
    (dateToX (parseDate fromRow.«end») ps w + w + ELBOW * 2 ≤
        dateToX (parseDate toRow.start) ps w →
      buildDependencyArrow ps w fromRow toRow fromVisY toVisY =
        ⟨(dateToX (parseDate fromRow.«end») ps w + w, fromVisY + ROW_HEIGHT / 2),
         [Seg.H (dateToX (parseDate fromRow.«end») ps w + w + ELBOW),
          Seg.V (toVisY + ROW_HEIGHT / 2),
          Seg.H (dateToX (parseDate toRow.start) ps w)]⟩) ∧
    (¬ dateToX (parseDate fromRow.«end») ps w + w + ELBOW * 2 ≤
        dateToX (parseDate toRow.start) ps w →
      buildDependencyArrow ps w fromRow toRow fromVisY toVisY =
        ⟨(dateToX (parseDate fromRow.«end») ps w + w, fromVisY + ROW_HEIGHT / 2),
         [Seg.H (dateToX (parseDate fromRow.«end») ps w + w + ELBOW),
          Seg.V (if fromVisY + ROW_HEIGHT / 2 < toVisY + ROW_HEIGHT / 2 then
              fromVisY + ROW_HEIGHT + 4
            else fromVisY - 4),
          Seg.H (max ELBOW (dateToX (parseDate toRow.start) ps w - ELBOW)),
          Seg.V (toVisY + ROW_HEIGHT / 2),
          Seg.H (dateToX (parseDate toRow.start) ps w)]⟩) := by
  constructor
  · intro h
    simp only [buildDependencyArrow]
    rw [if_pos h]
  · intro h
    simp only [buildDependencyArrow]
    rw [if_neg h]

theorem buildDependencyArrow_cases_witness :
    buildDependencyArrow 19723 1
        ⟨RowType.task, 0, some 0, "g1", "t1", "T1", ⟨2024, 1, 1⟩, ⟨2024, 1, 2⟩,
          "", [], 1, true⟩
        ⟨RowType.task, 0, some 1, "g1", "t2", "T2", ⟨2024, 2, 1⟩, ⟨2024, 2, 3⟩,
          "", ["t1"], 2, true⟩ 0 44 =
      ⟨(2, 22), [Seg.H 12, Seg.V 66, Seg.H 31]⟩ := by
  have e1 : parseDate ⟨2024, 1, 2⟩ = 19724 := by decide
  have e2 : parseDate ⟨2024, 2, 1⟩ = 19754 := by decide
  have h := (buildDependencyArrow_cases 19723 1
    ⟨RowType.task, 0, some 0, "g1", "t1", "T1", ⟨2024, 1, 1⟩, ⟨2024, 1, 2⟩,
      "", [], 1, true⟩
    ⟨RowType.task, 0, some 1, "g1", "t2", "T2", ⟨2024, 2, 1⟩, ⟨2024, 2, 3⟩,
      "", ["t1"], 2, true⟩ 0 44).1
    (by simp only [dateToX_eval, ELBOW, e1, e2]; norm_num)
  rw [h]
  simp only [dateToX_eval, ELBOW, ROW_HEIGHT, e1, e2]
  norm_num

/-! ### Claim C9: render determinism -/

/-- Claim C9: two render passes with the same schedule, collapsed-set and
available width produce identical flattened rows, visible offsets, bars and
arrows, and identical resulting chart state — the layout is a pure function
of `(schedule, collapsed-set, width)` with no state accumulated across
passes (the first pass's `rows`/`dayWidth`/`svgWidth` fields are overwritten,
never read). -/
theorem render_deterministic (s : GanttChart) (availableWidth : ℚ) :
    ((s.render availableWidth).1.render availableWidth).2 = (s.render availableWidth).2 ∧
    ((s.render availableWidth).1.render availableWidth).1 = (s.render availableWidth).1 := by
  constructor <;> rfl

/-! ### Claim C7: the timeline always fits the viewport -/

/-- The scenario schedule of the spec: project 2024-01-01..2024-01-31, one
group `phase-1` with one task `task-1-1` spanning 2024-01-05..2024-01-10. -/
def c7Scenario : ScheduleData :=
  ⟨⟨"Sample", ⟨2024, 1, 1⟩, ⟨2024, 1, 31⟩⟩,
   [⟨"phase-1", "Phase 1", ⟨2024, 1, 5⟩, ⟨2024, 1, 10⟩, "4d",
     [⟨"task-1-1", "Task 1.1", ⟨2024, 1, 5⟩, ⟨2024, 1, 10⟩, "4d", []⟩]⟩]⟩

/-- Claim C7: with `dayWidth = availableWidth / totalProjectDays` and
`totalProjectDays = daysBetween(projectStart, projectEnd) + 1`, the right
edge of the last day's cell, `dateToX(projectEnd) + dayWidth`, equals
`availableWidth` exactly; in the spec's scenario (31 days, 310px) the render
pass sets `dayWidth = 10` and both bars (group and task start 2024-01-05)
get `x = 40`. -/
theorem render_fits_viewport (psC peC : CivilDate) (availableWidth : ℚ)
    (hle : parseDate psC ≤ parseDate peC) :
    (dateToX (parseDate peC) (parseDate psC)
        (availableWidth /
          ((daysBetween (toTimestamp (parseDate psC)) (toTimestamp (parseDate peC)) + 1 : Int) : ℚ)) +
      availableWidth /
        ((daysBetween (toTimestamp (parseDate psC)) (toTimestamp (parseDate peC)) + 1 : Int) : ℚ) =
      availableWidth) ∧
    ((GanttChart.init c7Scenario).render 310).1.dayWidth = 10 ∧
    ((GanttChart.init c7Scenario).render 310).2.bars.map Bar.x = [40, 40] := by
  have ht : (GanttChart.init c7Scenario).totalDays = 31 := by decide
  have hps : (GanttChart.init c7Scenario).projectStart = 19723 := by decide
  have hrows : buildRows c7Scenario.groups ∅ =
      [⟨RowType.phase, 0, none, "phase-1", "phase-1", "Phase 1", ⟨2024, 1, 5⟩,
        ⟨2024, 1, 10⟩, "4d", [], 0, true⟩,
       ⟨RowType.task, 0, some 0, "phase-1", "task-1-1", "Task 1.1", ⟨2024, 1, 5⟩,
        ⟨2024, 1, 10⟩, "4d", [], 1, true⟩] := by decide
  have e5 : parseDate ⟨2024, 1, 5⟩ = 19727 := by decide
  refine ⟨?_, ?_, ?_⟩
  · have hD := daysBetween_toTimestamp (parseDate psC) (parseDate peC)
    rw [dateToX, hD]
    have h1 : ((parseDate peC - parseDate psC + 1 : Int) : ℚ) ≠ 0 := by
      rw [Int.cast_ne_zero]
      omega
    push_cast at h1 ⊢
    field_simp
    ring
  · show (310 : ℚ) / ((GanttChart.init c7Scenario).totalDays : ℚ) = 10
    rw [ht]
    norm_num
  · show (renderBars (GanttChart.init c7Scenario).projectStart
        (310 / ((GanttChart.init c7Scenario).totalDays : ℚ))
        (buildRows c7Scenario.groups (GanttChart.init c7Scenario).collapsedGroups)
        0).map Bar.x = [40, 40]
    rw [hps, ht, show (GanttChart.init c7Scenario).collapsedGroups = ∅ from rfl, hrows]
    norm_num
    simp only [renderBars, if_pos, reduceIte, buildPhaseBar, buildTaskBar, List.map_cons,
      List.map_nil, dateToX_eval, e5]
    norm_num
    rw [if_neg (by decide : ¬ (RowType.task = RowType.phase))]

theorem render_fits_viewport_witness :
    dateToX (parseDate ⟨2024, 1, 31⟩) (parseDate ⟨2024, 1, 1⟩)
        (310 /
          ((daysBetween (toTimestamp (parseDate ⟨2024, 1, 1⟩))
              (toTimestamp (parseDate ⟨2024, 1, 31⟩)) + 1 : Int) : ℚ)) +
      310 /
        ((daysBetween (toTimestamp (parseDate ⟨2024, 1, 1⟩))
            (toTimestamp (parseDate ⟨2024, 1, 31⟩)) + 1 : Int) : ℚ) =
      310 :=
  (render_fits_viewport ⟨2024, 1, 1⟩ ⟨2024, 1, 31⟩ 310 (by decide)).1

/-! ### Claim C10: bars are at least 4px wide, never negative -/

theorem buildPhaseBar_w (r : Row) (y : ℚ) (ps : Int) (w : ℚ) :
    (buildPhaseBar r y ps w).w =
      max (dateToX (parseDate r.«end») ps w + w - dateToX (parseDate r.start) ps w) 4 := rfl

theorem buildTaskBar_w (r : Row) (y : ℚ) (ps : Int) (w : ℚ) :
    (buildTaskBar r y ps w).w =
      max (dateToX (parseDate r.«end») ps w + w - dateToX (parseDate r.start) ps w) 4 := rfl

theorem renderBars_mem_min_width (ps : Int) (w : ℚ) :
    ∀ (rows : List Row) (vi : Nat), ∀ b ∈ renderBars ps w rows vi, 4 ≤ b.w := by
  intro rows
  induction rows with
  | nil =>
    intro vi b hb
    cases hb
  | cons r rs ih =>
    intro vi b hb
    rw [renderBars] at hb
    by_cases hv : r.visible
    · rw [if_pos hv] at hb
      rcases List.mem_cons.mp hb with hb | hb
      · subst hb
        by_cases ht : r.type = RowType.phase
        · rw [if_pos ht, buildPhaseBar_w]
          exact le_max_right _ _
        · rw [if_neg ht, buildTaskBar_w]
          exact le_max_right _ _
      · exact ih (vi + 1) b hb
    · rw [if_neg hv] at hb
      exact ih vi b hb

/-- Claim C10: every rendered bar, phase or task, has width
`max(endX − x, 4)`, hence at least 4 pixels and never negative, for every
input pair of dates. -/
theorem bar_min_width (r : Row) (y : ℚ) (ps : Int) (w : ℚ) :
    ((buildPhaseBar r y ps w).w =
        max (dateToX (parseDate r.«end») ps w + w - dateToX (parseDate r.start) ps w) 4 ∧
      4 ≤ (buildPhaseBar r y ps w).w ∧ 0 ≤ (buildPhaseBar r y ps w).w) ∧
    ((buildTaskBar r y ps w).w =
        max (dateToX (parseDate r.«end») ps w + w - dateToX (parseDate r.start) ps w) 4 ∧
      4 ≤ (buildTaskBar r y ps w).w ∧ 0 ≤ (buildTaskBar r y ps w).w) ∧
    ∀ (rows : List Row) (vi : Nat), ∀ b ∈ renderBars ps w rows vi,
      4 ≤ b.w ∧ 0 ≤ b.w := by
  refine ⟨⟨buildPhaseBar_w r y ps w, ?_, ?_⟩, ⟨buildTaskBar_w r y ps w, ?_, ?_⟩, ?_⟩
  · rw [buildPhaseBar_w]
    exact le_max_right _ _
  · rw [buildPhaseBar_w]
    exact le_trans (by norm_num) (le_max_right _ _)
  · rw [buildTaskBar_w]
    exact le_max_right _ _
  · rw [buildTaskBar_w]
    exact le_trans (by norm_num) (le_max_right _ _)
  · intro rows vi b hb
    refine ⟨renderBars_mem_min_width ps w rows vi b hb, ?_⟩
    exact le_trans (by norm_num) (renderBars_mem_min_width ps w rows vi b hb)

theorem bar_min_width_witness :
    4 ≤ (buildTaskBar
        ⟨RowType.task, 0, some 0, "g1", "t1", "T1", ⟨2024, 1, 10⟩, ⟨2024, 1, 5⟩,
          "", [], 1, true⟩ 0 19723 1).w ∧
      0 ≤ (buildTaskBar
        ⟨RowType.task, 0, some 0, "g1", "t1", "T1", ⟨2024, 1, 10⟩, ⟨2024, 1, 5⟩,
          "", [], 1, true⟩ 0 19723 1).w :=
  (bar_min_width
    ⟨RowType.task, 0, some 0, "g1", "t1", "T1", ⟨2024, 1, 10⟩, ⟨2024, 1, 5⟩,
      "", [], 1, true⟩ 0 19723 1).2.2
    [⟨RowType.task, 0, some 0, "g1", "t1", "T1", ⟨2024, 1, 10⟩, ⟨2024, 1, 5⟩,
      "", [], 1, true⟩] 0
    (buildTaskBar
      ⟨RowType.task, 0, some 0, "g1", "t1", "T1", ⟨2024, 1, 10⟩, ⟨2024, 1, 5⟩,
        "", [], 1, true⟩ 0 19723 1)
    (by simp [renderBars])


/-! ### Claim C3: the flattener emits rows in document order -/

theorem buildRowsAux_map_id (c : Finset String) :
    ∀ (gs : List Group) (gi idx : Nat),
      (buildRowsAux c gi idx gs).map (fun r => r.id) =
        gs.flatMap (fun g => g.id :: g.tasks.map (fun t => t.id)) := by
  intro gs
  induction gs with
  | nil =>
    intro gi idx
    rfl
  | cons g gs ih =>
    intro gi idx
    simp only [buildRowsAux, List.map_cons, List.map_append, List.map_map,
      List.flatMap_cons]
    congr 1
    congr 1
    · have hsnd := List.enum_map_snd g.tasks
      calc g.tasks.enum.map ((fun r => r.id) ∘ fun p =>
            taskRowOf gi p.1 (idx + 1 + p.1) g.id p.2 (decide (g.id ∈ c)))
          = g.tasks.enum.map (fun p => p.2.id) := by
            refine List.map_congr_left ?_
            intro p _
            rfl
        _ = (g.tasks.enum.map Prod.snd).map (fun t => t.id) := by
            rw [List.map_map]
            rfl
        _ = g.tasks.map (fun t => t.id) := by rw [hsnd]
    · exact ih _ _

theorem buildRowsAux_map_rowIndex (c : Finset String) :
    ∀ (gs : List Group) (gi idx : Nat),
      (buildRowsAux c gi idx gs).map (fun r => r.rowIndex) =
        List.range' idx (buildRowsAux c gi idx gs).length := by
  intro gs
  induction gs with
  | nil =>
    intro gi idx
    rfl
  | cons g gs ih =>
    intro gi idx
    simp only [buildRowsAux, List.map_cons, List.map_append, List.map_map,
      List.length_cons, List.length_append, List.length_map, List.enum_length]
    have htask : g.tasks.enum.map ((fun r => r.rowIndex) ∘ fun p =>
          taskRowOf gi p.1 (idx + 1 + p.1) g.id p.2 (decide (g.id ∈ c))) =
        List.range' (idx + 1) g.tasks.length := by
      calc g.tasks.enum.map ((fun r => r.rowIndex) ∘ fun p =>
            taskRowOf gi p.1 (idx + 1 + p.1) g.id p.2 (decide (g.id ∈ c)))
          = g.tasks.enum.map (fun p => (idx + 1) + p.1) := by
            refine List.map_congr_left ?_
            intro p _
            show idx + 1 + p.1 = idx + 1 + p.1
            rfl
        _ = (g.tasks.enum.map Prod.fst).map (fun k => (idx + 1) + k) := by
            rw [List.map_map]
            rfl
        _ = (List.range g.tasks.length).map (fun k => (idx + 1) + k) := by
            rw [List.enum_map_fst]
        _ = List.range' (idx + 1) g.tasks.length := by
            rw [List.range_eq_range', List.map_add_range']
    rw [htask, ih]
    generalize (buildRowsAux c (gi + 1) (idx + 1 + g.tasks.length) gs).length = L
    rw [List.cons_append, List.range'_append_1]
    show idx :: List.range' (idx + 1) (L + g.tasks.length) = _
    rw [← List.range'_succ]
    congr 1
    omega

theorem buildRowsAux_mem_visibility (c : Finset String) :
    ∀ (gs : List Group) (gi idx : Nat), ∀ r ∈ buildRowsAux c gi idx gs,
      (r.type = RowType.phase → r.visible = true) ∧
      (r.type = RowType.task → (r.visible = false ↔ r.groupId ∈ c)) := by
  intro gs
  induction gs with
  | nil =>
    intro gi idx r hr
    simp only [buildRowsAux] at hr
    cases hr
  | cons g gs ih =>
    intro gi idx r hr
    simp only [buildRowsAux] at hr
    rcases List.mem_cons.mp hr with hr | hr
    · subst hr
      constructor
      · intro _
        rfl
      · intro ht
        cases ht
    rcases List.mem_append.mp hr with hr | hr
    · obtain ⟨p, _, hp⟩ := List.mem_map.mp hr
      subst hp
      constructor
      · intro ht
        cases ht
      · intro _
        show (!decide (g.id ∈ c)) = false ↔ g.id ∈ c
        simp
    · exact ih _ _ r hr

/-- Claim C3: for every schedule and collapsed-set, the flattener emits rows
in document order (for each group one phase row then its task rows),
assigning consecutive 0-based `rowIndex` ordinals; every phase row is
visible, and a task row is invisible iff its owning group's id is in the
collapsed-set. -/
theorem buildRows_spec (gs : List Group) (c : Finset String) :
    (buildRows gs c).map (fun r => r.id) =
      gs.flatMap (fun g => g.id :: g.tasks.map (fun t => t.id)) ∧
    (buildRows gs c).map (fun r => r.rowIndex) =
      List.range (buildRows gs c).length ∧
    (∀ r ∈ buildRows gs c, r.type = RowType.phase → r.visible = true) ∧
    (∀ r ∈ buildRows gs c, r.type = RowType.task →
      (r.visible = false ↔ r.groupId ∈ c)) := by
  refine ⟨buildRowsAux_map_id c gs 0 0, ?_, ?_, ?_⟩
  · rw [List.range_eq_range']
    exact buildRowsAux_map_rowIndex c gs 0 0
  · intro r hr
    exact (buildRowsAux_mem_visibility c gs 0 0 r hr).1
  · intro r hr
    exact (buildRowsAux_mem_visibility c gs 0 0 r hr).2

theorem buildRows_spec_witness :
    ((⟨RowType.task, 0, some 0, "phase-1", "task-1-1", "Task 1.1", ⟨2024, 1, 5⟩,
        ⟨2024, 1, 10⟩, "4d", [], 1, false⟩ : Row).visible = false ↔
      "phase-1" ∈ ({"phase-1"} : Finset String)) :=
  (buildRows_spec
      [⟨"phase-1", "Phase 1", ⟨2024, 1, 5⟩, ⟨2024, 1, 10⟩, "4d",
        [⟨"task-1-1", "Task 1.1", ⟨2024, 1, 5⟩, ⟨2024, 1, 10⟩, "4d", []⟩]⟩]
      {"phase-1"}).2.2.2
    ⟨RowType.task, 0, some 0, "phase-1", "task-1-1", "Task 1.1", ⟨2024, 1, 5⟩,
      ⟨2024, 1, 10⟩, "4d", [], 1, false⟩ (by decide) (by decide)


/-! ### Claim C4: collapse/expand round trip -/

/-- Collapsing a group `g` acts on an already-built row list by hiding
exactly `g`'s task rows. -/
def collapseFlip (g : String) (r : Row) : Row :=
  if r.type = RowType.task ∧ r.groupId = g then { r with visible := false } else r

theorem taskRowOf_insert (gi ti idx : Nat) (gid : String) (t : Task)
    (c : Finset String) (g : String) :
    taskRowOf gi ti idx gid t (decide (gid ∈ insert g c)) =
      collapseFlip g (taskRowOf gi ti idx gid t (decide (gid ∈ c))) := by
  by_cases hgid : gid = g
  · subst hgid
    rw [collapseFlip, if_pos ⟨rfl, rfl⟩]
    have hm : decide (gid ∈ insert gid c) = true := by simp
    rw [hm]
    rfl
  · have hm : decide (gid ∈ insert g c) = decide (gid ∈ c) := by
      simp [Finset.mem_insert, hgid]
    rw [hm, collapseFlip, if_neg]
    intro hcond
    exact hgid hcond.2

theorem buildRowsAux_insert (c : Finset String) (g : String) :
    ∀ (gs : List Group) (gi idx : Nat),
      buildRowsAux (insert g c) gi idx gs =
        (buildRowsAux c gi idx gs).map (collapseFlip g) := by
  intro gs
  induction gs with
  | nil =>
    intro gi idx
    rfl
  | cons gh gs ih =>
    intro gi idx
    rw [buildRowsAux, buildRowsAux, List.map_append, List.map_cons, List.map_map]
    congr 1
    · congr 1
      exact List.map_congr_left fun p _ =>
        taskRowOf_insert gi p.1 (idx + 1 + p.1) gh.id p.2 c g
    · exact ih _ _

theorem filter_visible_map_collapseFlip (g : String) :
    ∀ l : List Row,
      ((l.map (collapseFlip g)).filter fun r => r.visible) =
        ((l.filter fun r => r.visible).filter
          fun r => !decide (r.type = RowType.task ∧ r.groupId = g)) := by
  intro l
  induction l with
  | nil => rfl
  | cons r l ih =>
    by_cases hc : r.type = RowType.task ∧ r.groupId = g
    · have hflip : collapseFlip g r = { r with visible := false } := by
        rw [collapseFlip, if_pos hc]
      rw [List.map_cons, hflip, List.filter_cons_of_neg (by simp), ih]
      by_cases hv : r.visible = true
      · rw [List.filter_cons_of_pos (by exact hv),
          List.filter_cons_of_neg (by simp [hc])]
      · rw [List.filter_cons_of_neg (by exact hv)]
    · have hflip : collapseFlip g r = r := by rw [collapseFlip, if_neg hc]
      rw [List.map_cons, hflip]
      by_cases hv : r.visible = true
      · rw [List.filter_cons_of_pos (by exact hv),
          List.filter_cons_of_pos (by exact hv),
          List.filter_cons_of_pos (by simp [hc]), ih]
      · rw [List.filter_cons_of_neg (by exact hv),
          List.filter_cons_of_neg (by exact hv), ih]

theorem toggleGroup_toggleGroup (c : Finset String) (g : String) :
    toggleGroup (toggleGroup c g) g = c := by
  unfold toggleGroup
  split_ifs with h1 h2 h2 <;> simp_all [Finset.insert_erase, Finset.erase_insert]

theorem visibleYs_enumFrom :
    ∀ (l : List Row) (n : Nat),
      visibleYs l n =
        ((l.filter fun r => r.visible).enumFrom n).map
          (fun p => (p.2.rowIndex, (p.1 : ℚ) * ROW_HEIGHT)) := by
  intro l
  induction l with
  | nil =>
    intro n
    rfl
  | cons r l ih =>
    intro n
    by_cases hv : r.visible = true
    · rw [visibleYs, if_pos hv, List.filter_cons_of_pos (by exact hv), ih]
      rfl
    · rw [visibleYs, if_neg hv, List.filter_cons_of_neg (by exact hv), ih]

/-- Claim C4: for every schedule, collapsed-set and group id `g ∉ c`,
collapsing `g` removes exactly `g`'s task rows from the visible rows while
every phase row stays visible; each visible row's offset is
`visibleIndex × ROW_HEIGHT` over the remaining visible rows; and toggling
`g` a second time restores the collapsed-set, the flattened row order and
the visible offsets exactly. -/
theorem toggleGroup_collapse_expand (gs : List Group) (c : Finset String) (g : String)
    (hg : g ∉ c) :
    visibleRows (buildRows gs (toggleGroup c g)) =
      (visibleRows (buildRows gs c)).filter
        (fun r => !decide (r.type = RowType.task ∧ r.groupId = g)) ∧
    (∀ r ∈ buildRows gs (toggleGroup c g), r.type = RowType.phase →
      r ∈ visibleRows (buildRows gs (toggleGroup c g))) ∧
    toggleGroup (toggleGroup c g) g = c ∧
    buildRows gs (toggleGroup (toggleGroup c g) g) = buildRows gs c ∧
    visibleYs (buildRows gs (toggleGroup (toggleGroup c g) g)) 0 =
      visibleYs (buildRows gs c) 0 ∧
    visibleYs (buildRows gs (toggleGroup c g)) 0 =
      ((visibleRows (buildRows gs (toggleGroup c g))).enumFrom 0).map
        (fun p => (p.2.rowIndex, (p.1 : ℚ) * ROW_HEIGHT)) := by
  have hins : toggleGroup c g = insert g c := by rw [toggleGroup, if_neg hg]
  have htt := toggleGroup_toggleGroup c g
  refine ⟨?_, ?_, htt, by rw [htt], by rw [htt], ?_⟩
  · rw [hins, visibleRows, visibleRows, buildRows, buildRows, buildRowsAux_insert]
    exact filter_visible_map_collapseFlip g _
  · intro r hr hp
    rw [visibleRows, List.mem_filter]
    exact ⟨hr, (buildRowsAux_mem_visibility _ _ 0 0 r hr).1 hp⟩
  · rw [visibleRows, visibleYs_enumFrom]

theorem toggleGroup_collapse_expand_witness :
    toggleGroup (toggleGroup (∅ : Finset String) "phase-1") "phase-1" = ∅ :=
  (toggleGroup_collapse_expand
      [⟨"phase-1", "Phase 1", ⟨2024, 1, 5⟩, ⟨2024, 1, 10⟩, "4d",
        [⟨"task-1-1", "Task 1.1", ⟨2024, 1, 5⟩, ⟨2024, 1, 10⟩, "4d", []⟩]⟩]
      ∅ "phase-1" (by decide)).2.2.1


/-! ### Claim C8: a skipped arrow stays local -/

/-- Dropping one dependency acts on a built row list by erasing it from the
matching task row's `dependsOn`. -/
def dropRowDep (tid bad : String) (r : Row) : Row :=
  if r.type = RowType.task ∧ r.id = tid then
    { r with dependsOn := r.dependsOn.erase bad }
  else r

theorem dropRowDep_type (tid bad : String) (r : Row) :
    (dropRowDep tid bad r).type = r.type := by
  rw [dropRowDep]
  split_ifs <;> rfl

theorem dropRowDep_id (tid bad : String) (r : Row) :
    (dropRowDep tid bad r).id = r.id := by
  rw [dropRowDep]
  split_ifs <;> rfl

theorem dropRowDep_visible (tid bad : String) (r : Row) :
    (dropRowDep tid bad r).visible = r.visible := by
  rw [dropRowDep]
  split_ifs <;> rfl

theorem dropRowDep_rowIndex (tid bad : String) (r : Row) :
    (dropRowDep tid bad r).rowIndex = r.rowIndex := by
  rw [dropRowDep]
  split_ifs <;> rfl

theorem dropRowDep_start (tid bad : String) (r : Row) :
    (dropRowDep tid bad r).start = r.start := by
  rw [dropRowDep]
  split_ifs <;> rfl

theorem dropRowDep_stop (tid bad : String) (r : Row) :
    (dropRowDep tid bad r).«end» = r.«end» := by
  rw [dropRowDep]
  split_ifs <;> rfl

theorem taskRowOf_dropDep (gi ti idx : Nat) (gid : String) (t : Task)
    (coll : Bool) (tid bad : String) :
    taskRowOf gi ti idx gid
        (if t.id = tid then { t with dependsOn := t.dependsOn.erase bad } else t)
        coll =
      dropRowDep tid bad (taskRowOf gi ti idx gid t coll) := by
  by_cases ht : t.id = tid
  · rw [if_pos ht, dropRowDep, if_pos ⟨rfl, ht⟩]
    rfl
  · rw [if_neg ht, dropRowDep, if_neg]
    intro hcond
    exact ht hcond.2

theorem buildRowsAux_dropDep (c : Finset String) (tid bad : String) :
    ∀ (gs : List Group) (gi idx : Nat),
      buildRowsAux c gi idx (dropDep gs tid bad) =
        (buildRowsAux c gi idx gs).map (dropRowDep tid bad) := by
  intro gs
  induction gs with
  | nil =>
    intro gi idx
    rfl
  | cons gh gs ih =>
    intro gi idx
    rw [dropDep, List.map_cons]
    rw [buildRowsAux, buildRowsAux, List.map_append, List.map_cons, List.map_map]
    show phaseRowOf gi idx gh ::
        ((gh.tasks.map fun t =>
          if t.id = tid then { t with dependsOn := t.dependsOn.erase bad } else t).enum.map
            fun p => taskRowOf gi p.1 (idx + 1 + p.1) gh.id p.2 (decide (gh.id ∈ c))) ++
        buildRowsAux c (gi + 1)
          (idx + 1 + (gh.tasks.map fun t =>
            if t.id = tid then { t with dependsOn := t.dependsOn.erase bad } else t).length)
          (dropDep gs tid bad) = _
    rw [List.length_map, List.enum_map]
    congr 1
    · congr 1
      rw [List.map_map]
      refine List.map_congr_left ?_
      intro p _
      exact taskRowOf_dropDep gi p.1 (idx + 1 + p.1) gh.id p.2 (decide (gh.id ∈ c)) tid bad
    · rw [show dropDep gs tid bad = dropDep gs tid bad from rfl]
      exact ih _ _

theorem rowSkeleton_map_dropRowDep (tid bad : String) (l : List Row) :
    rowSkeleton (l.map (dropRowDep tid bad)) = rowSkeleton l := by
  rw [rowSkeleton, rowSkeleton, List.map_map]
  refine List.map_congr_left ?_
  intro r _
  show ((dropRowDep tid bad r).type, _, _, _, _, _, _, _, _, _, _) = _
  rw [dropRowDep]
  split_ifs <;> rfl

theorem buildPhaseBar_dropRowDep (tid bad : String) (r : Row) (y : ℚ) (ps : Int) (w : ℚ) :
    buildPhaseBar (dropRowDep tid bad r) y ps w = buildPhaseBar r y ps w := by
  rw [buildPhaseBar, buildPhaseBar, dropRowDep_start, dropRowDep_stop]

theorem buildTaskBar_dropRowDep (tid bad : String) (r : Row) (y : ℚ) (ps : Int) (w : ℚ) :
    buildTaskBar (dropRowDep tid bad r) y ps w = buildTaskBar r y ps w := by
  rw [buildTaskBar, buildTaskBar, dropRowDep_start, dropRowDep_stop]

theorem renderBars_map_dropRowDep (tid bad : String) (ps : Int) (w : ℚ) :
    ∀ (l : List Row) (vi : Nat),
      renderBars ps w (l.map (dropRowDep tid bad)) vi = renderBars ps w l vi := by
  intro l
  induction l with
  | nil =>
    intro vi
    rfl
  | cons r l ih =>
    intro vi
    rw [List.map_cons, renderBars, renderBars, dropRowDep_visible, dropRowDep_type]
    by_cases hv : r.visible = true
    · rw [if_pos hv, if_pos hv, ih]
      by_cases ht : r.type = RowType.phase
      · rw [if_pos ht, if_pos ht, buildPhaseBar_dropRowDep]
      · rw [if_neg ht, if_neg ht, buildTaskBar_dropRowDep]
    · rw [if_neg hv, if_neg hv, ih]

theorem visibleYs_map_dropRowDep (tid bad : String) :
    ∀ (l : List Row) (vi : Nat),
      visibleYs (l.map (dropRowDep tid bad)) vi = visibleYs l vi := by
  intro l
  induction l with
  | nil =>
    intro vi
    rfl
  | cons r l ih =>
    intro vi
    rw [List.map_cons, visibleYs, visibleYs, dropRowDep_visible, dropRowDep_rowIndex]
    by_cases hv : r.visible = true
    · rw [if_pos hv, if_pos hv, ih]
    · rw [if_neg hv, if_neg hv, ih]

theorem buildTaskMap_map_dropRowDep (tid bad : String) :
    ∀ (l : List Row) (k : String),
      buildTaskMap (l.map (dropRowDep tid bad)) k =
        Option.map (dropRowDep tid bad) (buildTaskMap l k) := by
  intro l
  induction l with
  | nil =>
    intro k
    rfl
  | cons r l ih =>
    intro k
    rw [List.map_cons, buildTaskMap, buildTaskMap, ih]
    cases h : buildTaskMap l k with
    | some x => rfl
    | none =>
      show (if (dropRowDep tid bad r).type = RowType.task ∧ (dropRowDep tid bad r).id = k
          then some (dropRowDep tid bad r) else none) =
        Option.map (dropRowDep tid bad)
          (if r.type = RowType.task ∧ r.id = k then some r else none)
      rw [dropRowDep_type, dropRowDep_id]
      by_cases hc : r.type = RowType.task ∧ r.id = k
      · rw [if_pos hc, if_pos hc]
        rfl
      · rw [if_neg hc, if_neg hc]
        rfl

theorem filterMap_erase_of_none {α : Type} (f : String → Option α) (a : String)
    (hf : f a = none) :
    ∀ l : List String, (l.erase a).filterMap f = l.filterMap f := by
  intro l
  induction l with
  | nil => rfl
  | cons b l ih =>
    by_cases hb : b = a
    · subst hb
      rw [List.erase_cons_head, List.filterMap_cons, hf]
    · rw [List.erase_cons_tail (by simp [hb]), List.filterMap_cons, List.filterMap_cons, ih]

theorem flatMap_congr_mem {α β : Type} (l : List α) (f g : α → List β)
    (h : ∀ x ∈ l, f x = g x) : l.flatMap f = l.flatMap g := by
  induction l with
  | nil => rfl
  | cons a l ih =>
    rw [List.flatMap_cons, List.flatMap_cons, h a (List.mem_cons_self a l),
      ih fun x hx => h x (List.mem_cons_of_mem a hx)]

theorem buildDependencyArrow_dropRowDep (tid bad : String) (ps : Int) (w : ℚ)
    (a b : Row) (y1 y2 : ℚ) :
    buildDependencyArrow ps w (dropRowDep tid bad a) (dropRowDep tid bad b) y1 y2 =
      buildDependencyArrow ps w a b y1 y2 := by
  rw [buildDependencyArrow, buildDependencyArrow, dropRowDep_stop, dropRowDep_start]


/-- Claim C8: for a dependency edge whose predecessor id does not resolve to
any known task row, or whose predecessor or successor row is invisible, no
arrow is produced and every other row, bar, offset and arrow of the render
pass is unchanged: removing that edge from the schedule leaves the whole
rendered output identical (and the renderer is a total function — no error
is raised). -/
theorem skipped_arrow_stays_local (gs : List Group) (c : Finset String)
    (tid bad : String) (ps : Int) (w : ℚ)
    (hbad : (∀ r : Row, buildTaskMap (buildRows gs c) bad = some r →
              r.visible = false) ∨
            (∀ r ∈ buildRows gs c, r.type = RowType.task → r.id = tid →
              r.visible = false)) :
    rowSkeleton (buildRows (dropDep gs tid bad) c) = rowSkeleton (buildRows gs c) ∧
    renderBars ps w (buildRows (dropDep gs tid bad) c) 0 =
      renderBars ps w (buildRows gs c) 0 ∧
    visibleYs (buildRows (dropDep gs tid bad) c) 0 =
      visibleYs (buildRows gs c) 0 ∧
    renderArrows (buildRows (dropDep gs tid bad) c) ps w =
      renderArrows (buildRows gs c) ps w := by
  have hmap : buildRows (dropDep gs tid bad) c =
      (buildRows gs c).map (dropRowDep tid bad) :=
    buildRowsAux_dropDep c tid bad gs 0 0
  rw [hmap]
  refine ⟨rowSkeleton_map_dropRowDep _ _ _,
    renderBars_map_dropRowDep _ _ _ _ _ _,
    visibleYs_map_dropRowDep _ _ _ _, ?_⟩
  rw [renderArrows, renderArrows, List.flatMap_map]
  refine flatMap_congr_mem _ _ _ ?_
  intro r hr
  by_cases hcond : r.type = RowType.task ∧ r.visible = true
  · rw [if_pos (by rw [dropRowDep_type, dropRowDep_visible]; exact hcond),
      if_pos hcond]
    have hf : ∀ x ∈ r.dependsOn,
        (match buildTaskMap ((buildRows gs c).map (dropRowDep tid bad)) x with
          | none => none
          | some depRow =>
            if depRow.visible = true then
              some (buildDependencyArrow ps w depRow (dropRowDep tid bad r)
                (((visibleYs ((buildRows gs c).map (dropRowDep tid bad)) 0).lookup
                  depRow.rowIndex).getD 0)
                (((visibleYs ((buildRows gs c).map (dropRowDep tid bad)) 0).lookup
                  (dropRowDep tid bad r).rowIndex).getD 0))
            else none) =
          (match buildTaskMap (buildRows gs c) x with
            | none => none
            | some depRow =>
              if depRow.visible = true then
                some (buildDependencyArrow ps w depRow r
                  (((visibleYs (buildRows gs c) 0).lookup depRow.rowIndex).getD 0)
                  (((visibleYs (buildRows gs c) 0).lookup r.rowIndex).getD 0))
              else none) := by
      intro x _
      rw [buildTaskMap_map_dropRowDep, visibleYs_map_dropRowDep, dropRowDep_rowIndex]
      cases hb : buildTaskMap (buildRows gs c) x with
      | none => rfl
      | some depRow =>
        show (if (dropRowDep tid bad depRow).visible = true then
            some (buildDependencyArrow ps w (dropRowDep tid bad depRow)
              (dropRowDep tid bad r)
              (((visibleYs (buildRows gs c) 0).lookup
                (dropRowDep tid bad depRow).rowIndex).getD 0)
              (((visibleYs (buildRows gs c) 0).lookup r.rowIndex).getD 0))
          else none) = _
        rw [dropRowDep_visible, dropRowDep_rowIndex]
        show _ = (if depRow.visible = true then
            some (buildDependencyArrow ps w depRow r
              (((visibleYs (buildRows gs c) 0).lookup depRow.rowIndex).getD 0)
              (((visibleYs (buildRows gs c) 0).lookup r.rowIndex).getD 0))
          else none)
        by_cases hv : depRow.visible = true
        · rw [if_pos hv, if_pos hv, buildDependencyArrow_dropRowDep]
        · rw [if_neg hv, if_neg hv]
    by_cases hid : r.id = tid
    · have hdr : (dropRowDep tid bad r).dependsOn = r.dependsOn.erase bad := by
        rw [dropRowDep, if_pos ⟨hcond.1, hid⟩]
      rw [hdr]
      rcases hbad with hbadA | hbadB
      · refine Eq.trans (filterMap_erase_of_none _ bad ?_ r.dependsOn)
          (List.filterMap_congr hf)
        rw [buildTaskMap_map_dropRowDep]
        cases hb : buildTaskMap (buildRows gs c) bad with
        | none => rfl
        | some depRow =>
          show (if (dropRowDep tid bad depRow).visible = true then _ else none) = none
          rw [dropRowDep_visible, if_neg]
          rw [hbadA depRow hb]
          exact Bool.false_ne_true
      · have hvf := hbadB r hr hcond.1 hid
        rw [hvf] at hcond
        exact absurd hcond.2 Bool.false_ne_true
    · have hdr : (dropRowDep tid bad r).dependsOn = r.dependsOn := by
        rw [dropRowDep, if_neg]
        intro hcon
        exact hid hcon.2
      rw [hdr]
      exact List.filterMap_congr hf
  · rw [if_neg (by rw [dropRowDep_type, dropRowDep_visible]; exact hcond),
      if_neg hcond]

theorem skipped_arrow_stays_local_witness :
    renderArrows
        (buildRows
          (dropDep
            [⟨"g1", "G1", ⟨2024, 1, 1⟩, ⟨2024, 1, 10⟩, "5d",
              [⟨"t1", "T1", ⟨2024, 1, 1⟩, ⟨2024, 1, 5⟩, "3d", ["ghost"]⟩]⟩]
            "t1" "ghost") ∅) 0 1 =
      renderArrows
        (buildRows
          [⟨"g1", "G1", ⟨2024, 1, 1⟩, ⟨2024, 1, 10⟩, "5d",
            [⟨"t1", "T1", ⟨2024, 1, 1⟩, ⟨2024, 1, 5⟩, "3d", ["ghost"]⟩]⟩] ∅) 0 1 := by
  have hnone : buildTaskMap
      (buildRows
        [⟨"g1", "G1", ⟨2024, 1, 1⟩, ⟨2024, 1, 10⟩, "5d",
          [⟨"t1", "T1", ⟨2024, 1, 1⟩, ⟨2024, 1, 5⟩, "3d", ["ghost"]⟩]⟩] ∅)
      "ghost" = none := by decide
  refine (skipped_arrow_stays_local
      [⟨"g1", "G1", ⟨2024, 1, 1⟩, ⟨2024, 1, 10⟩, "5d",
        [⟨"t1", "T1", ⟨2024, 1, 1⟩, ⟨2024, 1, 5⟩, "3d", ["ghost"]⟩]⟩] ∅
      "t1" "ghost" 0 1 (Or.inl ?_)).2.2.2
  intro r hrr
  rw [hnone] at hrr
  cases hrr


/-! ### Claim C2: routing quality -/

end Gantt
